import Mathlib

/-
  Verification of the close-chat client-side synchronization layer.

  Shallow embedding of:
  - the WebSocket transport (src/unnamed/part_000, `ws.ts`): reconnection
    backoff (`scheduleReconnect`, `connectWs` onopen), `sendWs`, the
    dispatcher (`onWs` / `emit`) and the receive loop (`onmessage`);
  - the reconciliation store (src/src/context/AppContext.tsx): `addMessage`,
    `sendChatMessage`, `switchToChannel` (split into its synchronous part
    and its fetch-completion part), and the `onWs('message')` handler
    installed by `initApp`.

  Wall-clock time formatting (`getTimestamp`) is abstracted: a timestamp is
  an opaque string and the current time is threaded in as a `now` argument;
  the hours/minutes/seconds formatting is irrelevant to every property here.
-/

namespace CloseChat

/-! ## Transport: reconnection backoff (ws.ts lines 48-51, 128-134) -/

/-- The delay computed by `scheduleReconnect` from the current value of
`_reconnectAttempts`: `Math.min(1000 * Math.pow(2, attempts), 30000)`. -/
def backoffDelay (attempts : Nat) : Nat :=
  min (1000 * 2 ^ attempts) 30000

/-- Transport lifecycle events relevant to the backoff counter: a successful
open (`onopen`, which sets `_reconnectAttempts = 0`) and an unintentional
close (`onclose` with `_intentionalClose` false, which calls
`scheduleReconnect`: the delay is computed from the current counter and the
counter is then incremented). -/
inductive BEvent
  | opened
  | uclose
deriving DecidableEq, Repr

/-- Runs a sequence of open / unintentional-close events starting from a
given `_reconnectAttempts` value, returning the final counter and the list
of reconnect delays computed by `scheduleReconnect`, in chronological
order. -/
def runBackoffFrom : Nat → List BEvent → Nat × List Nat
  | _, .opened :: es => runBackoffFrom 0 es
  | a, .uclose :: es =>
      let r := runBackoffFrom (a + 1) es
      (r.1, backoffDelay a :: r.2)
  | a, [] => (a, [])

/-! ## Transport: sendWs (ws.ts lines 91-95) -/

/-- WebSocket `readyState` values. -/
inductive ReadyState
  | connecting
  | opened
  | closing
  | closed
deriving DecidableEq, Repr

/-- Outbound WebSocket frames produced by the store
(`WsOutgoingMessage`); only the kinds the modelled code paths emit. -/
inductive OutFrame
  | message (channelId : Nat) (content : String)
  | joinChannel (channelId : Nat)
deriving DecidableEq, Repr

/-- The transport's module-level mutable state in ws.ts: the socket (if
any, abstracted to its readyState), `_reconnectAttempts`,
`_intentionalClose`, and whether `_reconnectTimer` is pending. -/
structure TransportState where
  ws : Option ReadyState
  reconnectAttempts : Nat
  intentionalClose : Bool
  reconnectTimerPending : Bool
deriving DecidableEq, Repr

/-- `isWsConnected()`: `_ws !== null && _ws.readyState === WebSocket.OPEN`. -/
def isWsConnected (st : TransportState) : Bool :=
  match st.ws with
  | some rs => rs == ReadyState.opened
  | none => false

/-- `sendWs(msg)`: transmits the frame only when a socket exists and its
readyState is OPEN; otherwise it does nothing.  Returns the (unchanged)
transport state and the list of frames actually transmitted.  The function
is total: no exception is possible on any path. -/
def sendWs (st : TransportState) (m : OutFrame) : TransportState × List OutFrame :=
  match st.ws with
  | some rs => if rs = ReadyState.opened then (st, [m]) else (st, [])
  | none => (st, [])

/-! ## Event dispatcher (ws.ts lines 98-125) and receive loop (lines 53-63)

A handler is modelled by its observable behaviour during dispatch: an
identity (the function object's identity, used by `onWs`'s unsubscribe
closure via `indexOf`), the unsubscribe calls its body performs, and
whether its body then throws.  The registry is the `_handlers` map:
an association list from key (a concrete message type, or the wildcard)
to the handler array registered for that key, in registration order. -/

/-- A key of the `_handlers` map: a concrete message type or `'*'`. -/
inductive WsKey
  | kind (s : String)
  | star
deriving DecidableEq, Repr

/-- A registered handler, modelled by its observable effects: `hid` is the
function identity, `unsubs` the unsubscribe calls its body performs (in
order), `throws` whether the body then raises an exception. -/
structure Handler where
  hid : Nat
  unsubs : List (WsKey × Nat)
  throws : Bool
deriving DecidableEq, Repr

/-- The `_handlers` map: keys with their handler arrays. -/
abbrev Reg := List (WsKey × List Handler)

/-- `_handlers.get(k)`: the live array stored under a key, if present. -/
def lookupKey : Reg → WsKey → Option (List Handler)
  | [], _ => none
  | e :: t, k => if e.1 = k then some e.2 else lookupKey t k

/-- Removes the first handler with the given identity from an array:
`arr.indexOf(handler)` followed by `arr.splice(idx, 1)`. -/
def removeFirstById : List Handler → Nat → List Handler
  | [], _ => []
  | h :: t, x => if h.hid = x then t else h :: removeFirstById t x

/-- The unsubscribe closure returned by `onWs`: looks up the array for the
subscription's key and splices out the first occurrence of the handler. -/
def unsubscribe (r : Reg) (k : WsKey) (x : Nat) : Reg :=
  r.map (fun e => if e.1 = k then (e.1, removeFirstById e.2 x) else e)

/-- Runs a handler body's unsubscribe calls in order. -/
def applyUnsubs : Reg → List (WsKey × Nat) → Reg
  | r, [] => r
  | r, u :: us => applyUnsubs (unsubscribe r u.1 u.2) us

/-- Result of a dispatch: the registry after all mutations performed by
handler bodies, the identities of the handlers invoked in invocation
order, and whether an exception escaped the dispatch (`emit`). -/
structure EmitResult where
  reg : Reg
  log : List Nat
  threw : Bool
deriving DecidableEq, Repr

/-- One `forEach` loop of `emit` over the live array stored under `key`,
following the ECMAScript semantics the code relies on: the length is read
once at loop start (`steps` counts the remaining indices below it), each
index is re-read from the current (possibly spliced) array and skipped if
it no longer exists, and a handler that throws aborts the loop with the
exception propagating (mutations made before the throw persist). -/
def forEachPhase (key : WsKey) : Nat → Nat → Reg → List Nat → EmitResult
  | _, 0, r, log => ⟨r, log, false⟩
  | k, steps + 1, r, log =>
      let arr := (lookupKey r key).getD []
      if h : k < arr.length then
        let hd := arr.get ⟨k, h⟩
        let r1 := applyUnsubs r hd.unsubs
        if hd.throws then ⟨r1, log ++ [hd.hid], true⟩
        else forEachPhase key (k + 1) steps r1 (log ++ [hd.hid])
      else forEachPhase key (k + 1) steps r log

/-- `emit(msg)`: runs the type-specific handlers (when the frame's `type`
field is present — `_handlers.get(undefined)` can never be populated since
`onWs` only accepts concrete types or the wildcard), then the wildcard
handlers.  An exception thrown by any handler aborts the rest of the
dispatch and propagates to `emit`'s caller. -/
def emitModel (r : Reg) (ftype : Option String) : EmitResult :=
  let kindRes :=
    match ftype with
    | some t =>
        let arr := (lookupKey r (WsKey.kind t)).getD []
        forEachPhase (WsKey.kind t) 0 arr.length r []
    | none => ⟨r, [], false⟩
  if kindRes.threw then kindRes
  else
    let arr2 := (lookupKey kindRes.reg WsKey.star).getD []
    forEachPhase WsKey.star 0 arr2.length kindRes.reg kindRes.log

/-- The `onmessage` receive step: `parsed` is `none` when `JSON.parse`
threw (the frame is ignored), otherwise it carries the parsed frame's
`type` field (itself `none` when the field is absent).  The surrounding
`try/catch` also swallows any exception that escapes `emit`, so the step
is total and only the mutations and invocations performed before a throw
are observable. -/
def onmessageStep (r : Reg) (parsed : Option (Option String)) : Reg × List Nat :=
  match parsed with
  | none => (r, [])
  | some ftype =>
      let e := emitModel r ftype
      (e.reg, e.log)

/-- All handler identities present anywhere in the registry. -/
def handlerIds : Reg → List Nat
  | [] => []
  | e :: t => e.2.map (fun h => h.hid) ++ handlerIds t

/-! ## Reconciliation store (src/src/context/AppContext.tsx)

JavaScript `x || d` on strings treats the empty string as falsy; the
helpers below reproduce that.  Channel ids are modelled as `Nat` (the API
declares them as numbers). -/

/-- JS `o || d` for an optional string field: falls back when the field is
absent or the empty string. -/
def jsOrElse (o : Option String) (d : String) : String :=
  match o with
  | none => d
  | some s => if s = "" then d else s

/-- JS `a || b` for two optional string fields
(`data.timestamp || data.createdAt`). -/
def jsOrOpt (a b : Option String) : Option String :=
  match a with
  | none => b
  | some s => if s = "" then b else some s

/-- JS `ts ? f(ts) : undefined` for an optional string `ts` (with the
time-formatting `f` abstracted to the identity). -/
def jsIfTruthy (o : Option String) : Option String :=
  match o with
  | none => none
  | some s => if s = "" then none else some s

/-- `ChatMessage` (AppContext.tsx lines 12-18): one entry of the rendered
message list.  Ids are the values of the module-level `msgIdCounter`. -/
inductive MessageType
  | user
  | bot
  | system
deriving DecidableEq, Repr

structure ChatMessage where
  mid : Nat
  username : String
  text : String
  mtype : MessageType
  timestamp : String
deriving DecidableEq, Repr

/-- The slice of the API `User` record the modelled code paths read. -/
structure User where
  uid : Nat
  username : String
deriving DecidableEq, Repr

/-- `ChannelLastMessage` (api.ts lines 22-27). -/
structure ChannelLastMessage where
  content : String
  senderId : Nat
  senderUsername : String
  createdAt : String
deriving DecidableEq, Repr

/-- `Channel.type` is `"channel" | "dm"` (api.ts line 32). -/
inductive ChannelType
  | channel
  | dm
deriving DecidableEq, Repr

/-- The slice of the API `Channel` record the modelled code paths touch:
`unreadCount` is an optional field (`unreadCount?: number`). -/
structure Channel where
  cid : Nat
  name : String
  ctype : ChannelType
  unreadCount : Option Nat
  lastMessage : Option ChannelLastMessage
  recipient : Option User
deriving DecidableEq, Repr

/-- A message returned by `api.getMessages` (api.ts `Message`), restricted
to the fields `switchToChannel` reads when rendering history. -/
structure ApiMessage where
  senderUsername : Option String
  content : Option String
  mtype : Option MessageType
  createdAt : Option String
deriving DecidableEq, Repr

/-- Fire-and-forget data-access calls the modelled code paths issue. -/
inductive ApiCall
  | sendMessage (channelId : Nat) (content : String)
  | markChannelRead (channelId : Nat)
  | getMessages (channelId : Nat) (limit : Nat)
deriving DecidableEq, Repr

/-- The store state owned by `AppProvider`: the current user, the channel
list, the active channel id (nullable), the rendered message list of the
active channel, and the module-level `msgIdCounter`. -/
structure AppState where
  currentUser : Option User
  channels : List Channel
  activeChannelId : Option Nat
  messages : List ChatMessage
  msgIdCounter : Nat
deriving DecidableEq, Repr

/-- `addMessage(username, text, type, timestamp?)` (lines 160-169):
appends one `ChatMessage` with id `String(++msgIdCounter)` and timestamp
`timestamp || getTimestamp()` (the current wall clock is `now`). -/
def addMessage (now : String) (st : AppState) (username text : String)
    (ty : MessageType) (ts : Option String) : AppState :=
  { st with
    msgIdCounter := st.msgIdCounter + 1,
    messages := st.messages ++
      [⟨st.msgIdCounter + 1, username, text, ty, jsOrElse ts now⟩] }

/-- `sendChatMessage(text)` (lines 305-329).  `wsOpen` is the value of
`isWsConnected()`.  Returns the new state, the WebSocket frames sent, and
the data-access calls issued (the REST fallback). -/
def sendChatMessage (wsOpen : Bool) (now : String) (st : AppState)
    (text : String) : AppState × List OutFrame × List ApiCall :=
  match st.activeChannelId with
  | none =>
      (addMessage now st ""
        "system: No channel selected. Use /join <channel> or pick one from sidebar."
        MessageType.system none, [], [])
  | some chId =>
      let displayName :=
        match st.currentUser with
        | some u => "@" ++ u.username
        | none => "@anon"
      let st1 := addMessage now st displayName text MessageType.user none
      if wsOpen then (st1, [OutFrame.message chId text], [])
      else (st1, [], [ApiCall.sendMessage chId text])

/-- An inbound `message` event as read by the `onWs('message')` handler
(lines 338-344): `channelId`, `senderId`, and the optional
`senderUsername`, `content`, `timestamp`, `createdAt`, `messageType`
fields. -/
structure MessageEvent where
  channelId : Nat
  senderId : Nat
  senderUsername : Option String
  content : Option String
  timestamp : Option String
  createdAt : Option String
  messageType : Option MessageType
deriving DecidableEq, Repr

/-- The `onWs('message')` handler installed by `initApp` (lines 338-374):
if the event is for the active channel and the sender is not the current
user, append it to the rendered list; if it is for a different channel,
increment that channel's `unreadCount` (`(c.unreadCount || 0) + 1`) and
overwrite its `lastMessage`. -/
def handleMessageEvent (now : String) (st : AppState) (ev : MessageEvent) :
    AppState :=
  let senderUsername := jsOrElse ev.senderUsername "unknown"
  let content := jsOrElse ev.content ""
  let ts := jsOrOpt ev.timestamp ev.createdAt
  let st1 :=
    if some ev.channelId = st.activeChannelId then
      match st.currentUser with
      | none =>
          addMessage now st senderUsername content
            (ev.messageType.getD MessageType.user) (jsIfTruthy ts)
      | some u =>
          if ev.senderId ≠ u.uid then
            addMessage now st senderUsername content
              (ev.messageType.getD MessageType.user) (jsIfTruthy ts)
          else st
    else st
  if some ev.channelId ≠ st.activeChannelId then
    { st1 with
      channels := st1.channels.map (fun c =>
        if c.cid = ev.channelId then
          { c with
            unreadCount := some (c.unreadCount.getD 0 + 1),
            lastMessage := some ⟨content, ev.senderId, senderUsername,
                                 jsOrElse ts now⟩ }
        else c) }
  else st1

/-- The channel display name built by `switchToChannel` (lines 262-264). -/
def displayNameOf (ch : Channel) : String :=
  match ch.ctype with
  | ChannelType.dm =>
      match ch.recipient with
      | some r => "@" ++ r.username
      | none => "@" ++ ch.name
  | ChannelType.channel => "#" ++ ch.name

/-- Everything `switchToChannel` produces before its `await`: the state
after the synchronous prefix, the system message it pre-built (consuming
one id), the frames sent, and the fire-and-forget calls issued. -/
structure SwitchSyncResult where
  state : AppState
  sysMsg : ChatMessage
  frames : List OutFrame
  apiCalls : List ApiCall
deriving DecidableEq, Repr

/-- The synchronous prefix of `switchToChannel(ch)` (lines 248-275): set
the active channel id, fire-and-forget `markChannelRead`, send
`join-channel` when the socket is open, clear the rendered list, build the
"switched to" system message, and start the `getMessages` fetch. -/
def switchToChannelSync (wsOpen : Bool) (now : String) (st : AppState)
    (ch : Channel) : SwitchSyncResult :=
  let st1 := { st with activeChannelId := some ch.cid }
  let frames := if wsOpen then [OutFrame.joinChannel ch.cid] else []
  let st2 := { st1 with messages := ([] : List ChatMessage) }
  let sysMsg : ChatMessage :=
    ⟨st2.msgIdCounter + 1, "",
     "system: switched to " ++ displayNameOf ch, MessageType.system, now⟩
  let st3 := { st2 with msgIdCounter := st2.msgIdCounter + 1 }
  ⟨st3, sysMsg, frames,
   [ApiCall.markChannelRead ch.cid, ApiCall.getMessages ch.cid 50]⟩

/-- Renders a chronological history page (lines 277-283): each entry
consumes one `msgIdCounter` id of the state current at resolution time. -/
def renderHistoryGo : AppState → List ApiMessage → AppState × List ChatMessage
  | st, [] => (st, [])
  | st, m :: ms =>
      let msg : ChatMessage :=
        ⟨st.msgIdCounter + 1, jsOrElse m.senderUsername "unknown",
         jsOrElse m.content "", (m.mtype.getD MessageType.user),
         jsOrElse m.createdAt "invalid-date"⟩
      let r := renderHistoryGo { st with msgIdCounter := st.msgIdCounter + 1 } ms
      (r.1, msg :: r.2)

/-- The fetch-success continuation of `switchToChannel` (lines 274-284),
applied to whatever store state is current when the `getMessages` promise
resolves: reverse the page to chronological order, render it, and replace
the message list with the pre-built system message followed by the
rendered history — unconditionally, with no check that the active channel
is still the one the fetch was issued for. -/
def switchFetchOk (st : AppState) (sysMsg : ChatMessage)
    (page : List ApiMessage) : AppState :=
  let r := renderHistoryGo st page.reverse
  { r.1 with messages := sysMsg :: r.2 }

/-- The fetch-failure continuation of `switchToChannel` (lines 285-297). -/
def switchFetchErr (now : String) (st : AppState) (sysMsg : ChatMessage)
    (emsg : String) : AppState :=
  { st with
    msgIdCounter := st.msgIdCounter + 1,
    messages := [sysMsg,
      ⟨st.msgIdCounter + 1, "",
       "system: Failed to load messages: " ++ emsg, MessageType.system, now⟩] }

/-! ## Concrete inputs used by counterexamples and witnesses -/

/-- A group channel "alpha" with id 1. -/
def chAlpha : Channel := ⟨1, "alpha", ChannelType.channel, none, none, none⟩

/-- A group channel "beta" with id 2. -/
def chBeta : Channel := ⟨2, "beta", ChannelType.channel, none, none, none⟩

/-- A channel with three unread messages recorded locally. -/
def chUnread : Channel := ⟨1, "general", ChannelType.channel, some 3, none, none⟩

/-- The local user. -/
def selfUser : User := ⟨10, "me"⟩

/-- Initial store state for the stale-fetch scenario: logged in, two known
channels, nothing active, empty rendered list. -/
def st0 : AppState := ⟨some selfUser, [chAlpha, chBeta], none, [], 0⟩

/-- Stale-fetch scenario, step 1: the user switches to "alpha"
(socket not open); the history fetch for channel 1 starts. -/
def switchA : SwitchSyncResult := switchToChannelSync false "t1" st0 chAlpha

/-- Stale-fetch scenario, step 2: before the first fetch resolves, the
user switches to "beta"; the history fetch for channel 2 starts. -/
def switchB : SwitchSyncResult := switchToChannelSync false "t2" switchA.state chBeta

/-- Stale-fetch scenario, step 3: the fetch issued for "alpha" resolves
last (with one message of channel 1's history) and its continuation runs
against the store state in which "beta" is active. -/
def staleResult : AppState :=
  switchFetchOk switchB.state switchA.sysMsg
    [⟨some "ann", some "hello from alpha", some MessageType.user, some "t0"⟩]

/-- Dispatcher scenario for handler exceptions: a throwing handler
registered for "message" ahead of a normal one, plus a wildcard handler. -/
def regThrow : Reg :=
  [(WsKey.kind "message", [⟨1, [], true⟩, ⟨2, [], false⟩]),
   (WsKey.star, [⟨3, [], false⟩])]

/-- Dispatcher scenario for mid-dispatch unsubscription: the first of
three "message" handlers unsubscribes itself when invoked. -/
def regSelfUnsub : Reg :=
  [(WsKey.kind "message", [⟨1, [(WsKey.kind "message", 1)], false⟩,
                           ⟨2, [], false⟩, ⟨3, [], false⟩])]

/-- Dispatcher scenario for frames without a `type` field: a single
wildcard handler is registered. -/
def regStarOnly : Reg := [(WsKey.star, [⟨7, [], false⟩])]

/-- Dispatcher registry used by witnesses: a benign handler, a throwing
handler, and a trailing handler, all registered for kind "m". -/
def regThrowW : Reg :=
  [(WsKey.kind "m", [⟨4, [], false⟩, ⟨5, [], true⟩, ⟨6, [], false⟩])]

/-- A registry holding a single benign handler for kind "m" and no
wildcard entry. -/
def regSingle : Reg := [(WsKey.kind "m", [⟨1, [], false⟩])]

/-- Store state for the unread-count scenario: one channel with three
locally recorded unread messages, no channel active. -/
def stUnread : AppState := ⟨some selfUser, [chUnread], none, [], 0⟩

/-- The user switches to the channel carrying three unread messages. -/
def switchUnread : SwitchSyncResult := switchToChannelSync false "t1" stUnread chUnread

/-- The switch's history fetch resolves (empty page). -/
def switchedUnread : AppState :=
  switchFetchOk switchUnread.state switchUnread.sysMsg []

/-- Store state for send/receive witnesses: channel 1 ("alpha") active,
logged in as `selfUser`. -/
def stC1 : AppState := ⟨some selfUser, [chAlpha], some 1, [], 0⟩

/-- The self-originated confirmation event for a message the local user
sent to the active channel. -/
def evSelf : MessageEvent :=
  ⟨1, 10, some "me", some "hello", some "t0", none, some MessageType.user⟩

/-- Store state for unread-increment witnesses: channel 2 active, channel
1 ("general", 3 unread) known but inactive. -/
def stC7 : AppState := ⟨some selfUser, [chUnread, chBeta], some 2, [], 0⟩

/-- An inbound message for inactive-but-known channel 1. -/
def evOther : MessageEvent :=
  ⟨1, 99, some "ann", some "hi", none, some "t0", some MessageType.user⟩

/-- An inbound message for a channel id (5) that is neither active nor in
the local channel list. -/
def evUnknown : MessageEvent := ⟨5, 99, none, none, none, none, none⟩

/-! ## Backoff lemmas -/

theorem runBackoffFrom_append (a : Nat) (t s : List BEvent) :
    runBackoffFrom a (t ++ s)
      = ((runBackoffFrom (runBackoffFrom a t).1 s).1,
         (runBackoffFrom a t).2 ++ (runBackoffFrom (runBackoffFrom a t).1 s).2) := by
  induction t generalizing a with
  | nil => simp [runBackoffFrom]
  | cons e t ih =>
      cases e with
      | opened => simpa [runBackoffFrom] using ih 0
      | uclose => simp [runBackoffFrom, ih (a + 1)]

theorem runBackoffFrom_replicate (a N : Nat) :
    runBackoffFrom a (List.replicate N BEvent.uclose)
      = (a + N, (List.range N).map (fun i => backoffDelay (a + i))) := by
  induction N generalizing a with
  | zero => simp [runBackoffFrom]
  | succ n ih =>
      have harith : ∀ i : Nat, a + 1 + i = a + (i + 1) := by intro i; omega
      simp [List.replicate_succ, runBackoffFrom, ih (a + 1),
            List.range_succ_eq_map, List.map_map, Function.comp, harith]

/-- Claim C2: for every sequence of opens and unintentional closes, the
reconnection delay computed before the Nth consecutive scheduled retry
since the last successful open equals `min(1000 * 2^(N-1), 30000)`
milliseconds — the delays scheduled after an open are exactly
`backoffDelay 0, backoffDelay 1, …`, so the retry at zero-based index `i`
(one-based index `i + 1`) gets delay `min(1000 * 2^i, 30000)` — and every
successful open resets the attempt counter to 0, so the next retry's delay
is again `backoffDelay 0 = 1000` ms. -/
theorem reconnect_backoff_spec (t : List BEvent) (a N i : Nat) (hi : i < N) :
    (runBackoffFrom a (t ++ BEvent.opened :: List.replicate N BEvent.uclose)).2
        = (runBackoffFrom a t).2 ++ (List.range N).map backoffDelay
    ∧ ((List.range N).map backoffDelay)[i]? = some (min (1000 * 2 ^ i) 30000)
    ∧ (runBackoffFrom a (t ++ [BEvent.opened])).1 = 0
    ∧ backoffDelay 0 = 1000 := by
  refine ⟨?_, ?_, ?_, by decide⟩
  · rw [runBackoffFrom_append]
    simp [runBackoffFrom, runBackoffFrom_replicate 0 N]
  · rw [List.getElem?_map, List.getElem?_range hi]
    rfl
  · rw [runBackoffFrom_append]
    simp [runBackoffFrom]

theorem reconnect_backoff_spec_witness :
    (5 < 6)
    ∧ ((runBackoffFrom 3 ([BEvent.uclose] ++ BEvent.opened :: List.replicate 6 BEvent.uclose)).2
          = (runBackoffFrom 3 [BEvent.uclose]).2 ++ (List.range 6).map backoffDelay
       ∧ ((List.range 6).map backoffDelay)[5]? = some (min (1000 * 2 ^ 5) 30000)
       ∧ (runBackoffFrom 3 ([BEvent.uclose] ++ [BEvent.opened])).1 = 0
       ∧ backoffDelay 0 = 1000) :=
  ⟨by decide, reconnect_backoff_spec [BEvent.uclose] 3 6 5 (by decide)⟩

/-- Claim C9: for every message and every connection state other than Open
(no socket at all, or a socket whose readyState is not OPEN), `sendWs` has
no observable effect: the transport state is returned unchanged and no
frame is transmitted.  `sendWs` is a total function, so no exception is
possible on any path. -/
theorem sendWs_silent_drop (st : TransportState) (m : OutFrame)
    (h : isWsConnected st = false) :
    sendWs st m = (st, []) := by
  unfold sendWs
  unfold isWsConnected at h
  cases hw : st.ws with
  | none => simp
  | some rs =>
      rw [hw] at h
      simp at h
      simp [h]

theorem sendWs_silent_drop_witness :
    isWsConnected ⟨some ReadyState.closed, 2, false, true⟩ = false
    ∧ sendWs ⟨some ReadyState.closed, 2, false, true⟩ (OutFrame.joinChannel 1)
        = (⟨some ReadyState.closed, 2, false, true⟩, []) :=
  ⟨by decide,
   sendWs_silent_drop ⟨some ReadyState.closed, 2, false, true⟩
     (OutFrame.joinChannel 1) (by decide)⟩

/-! ## Store theorems -/

/-- Claim C1: sending a chat message while the transport is Open, with a
non-null active channel and a non-null current user, appends exactly one
optimistic message to the active channel's rendered list, and a later
inbound `message` event whose `senderId` equals the current user's id and
whose `channelId` equals the active channel leaves the whole state — in
particular the list length — unchanged (the self-sender suppression in the
`onWs('message')` handler). -/
theorem sendChat_optimistic_once_self_event_suppressed
    (st : AppState) (text now now2 : String) (u : User) (chId : Nat)
    (ev : MessageEvent)
    (hu : st.currentUser = some u) (hch : st.activeChannelId = some chId)
    (hev : ev.channelId = chId) (hs : ev.senderId = u.uid) :
    (sendChatMessage true now st text).1.messages
        = st.messages
            ++ [⟨st.msgIdCounter + 1, "@" ++ u.username, text, MessageType.user, now⟩]
    ∧ handleMessageEvent now2 (sendChatMessage true now st text).1 ev
        = (sendChatMessage true now st text).1
    ∧ (handleMessageEvent now2 (sendChatMessage true now st text).1 ev).messages.length
        = (sendChatMessage true now st text).1.messages.length := by
  have h1 : (sendChatMessage true now st text).1
      = addMessage now st ("@" ++ u.username) text MessageType.user none := by
    simp [sendChatMessage, hch, hu]
  have h2 : handleMessageEvent now2 (sendChatMessage true now st text).1 ev
      = (sendChatMessage true now st text).1 := by
    rw [h1]
    simp [handleMessageEvent, addMessage, hch, hu, hev, hs]
  exact ⟨by rw [h1]; simp [addMessage, jsOrElse], h2, by rw [h2]⟩

theorem sendChat_optimistic_once_self_event_suppressed_witness :
    stC1.currentUser = some selfUser
    ∧ stC1.activeChannelId = some 1
    ∧ evSelf.channelId = 1
    ∧ evSelf.senderId = selfUser.uid
    ∧ ((sendChatMessage true "t1" stC1 "hello").1.messages
        = stC1.messages
            ++ [⟨stC1.msgIdCounter + 1, "@" ++ selfUser.username, "hello",
                 MessageType.user, "t1"⟩]
      ∧ handleMessageEvent "t2" (sendChatMessage true "t1" stC1 "hello").1 evSelf
          = (sendChatMessage true "t1" stC1 "hello").1
      ∧ (handleMessageEvent "t2" (sendChatMessage true "t1" stC1 "hello").1
            evSelf).messages.length
          = (sendChatMessage true "t1" stC1 "hello").1.messages.length) :=
  ⟨by decide, by decide, by decide, by decide,
   sendChat_optimistic_once_self_event_suppressed stC1 "hello" "t1" "t2" selfUser 1
     evSelf (by decide) (by decide) (by decide) (by decide)⟩

/-- Claim C7: an inbound `message` event whose `channelId` differs from
the active channel increments the matching channel's unread counter by
exactly 1 (from `(c.unreadCount || 0)`), overwrites its last-message
preview with the event's content, leaves every non-matching channel entry
unchanged, leaves the channel-list length unchanged, and does not touch
the rendered message list. -/
theorem nonactive_message_unread_increment
    (st : AppState) (ev : MessageEvent) (now : String)
    (hne : some ev.channelId ≠ st.activeChannelId) :
    (handleMessageEvent now st ev).messages = st.messages
    ∧ (handleMessageEvent now st ev).channels.length = st.channels.length
    ∧ (∀ (i : Nat) (c : Channel), st.channels[i]? = some c → c.cid ≠ ev.channelId →
        (handleMessageEvent now st ev).channels[i]? = some c)
    ∧ (∀ (i : Nat) (c : Channel), st.channels[i]? = some c → c.cid = ev.channelId →
        (handleMessageEvent now st ev).channels[i]? = some
          { c with
            unreadCount := some (c.unreadCount.getD 0 + 1),
            lastMessage := some ⟨jsOrElse ev.content "", ev.senderId,
                                 jsOrElse ev.senderUsername "unknown",
                                 jsOrElse (jsOrOpt ev.timestamp ev.createdAt) now⟩ }) := by
  have hmain : handleMessageEvent now st ev
      = { st with channels := st.channels.map (fun c =>
            if c.cid = ev.channelId then
              { c with
                unreadCount := some (c.unreadCount.getD 0 + 1),
                lastMessage := some ⟨jsOrElse ev.content "", ev.senderId,
                                     jsOrElse ev.senderUsername "unknown",
                                     jsOrElse (jsOrOpt ev.timestamp ev.createdAt) now⟩ }
            else c) } := by
    unfold handleMessageEvent
    simp [hne]
  refine ⟨by rw [hmain], by rw [hmain]; simp, ?_, ?_⟩
  · intro i c hc hcid
    rw [hmain]
    simp only [List.getElem?_map, hc]
    simp [hcid]
  · intro i c hc hcid
    rw [hmain]
    simp only [List.getElem?_map, hc]
    simp [hcid]

theorem nonactive_message_unread_increment_witness :
    some evOther.channelId ≠ stC7.activeChannelId
    ∧ ((handleMessageEvent "t9" stC7 evOther).messages = stC7.messages
      ∧ (handleMessageEvent "t9" stC7 evOther).channels.length = stC7.channels.length
      ∧ (∀ (i : Nat) (c : Channel), stC7.channels[i]? = some c → c.cid ≠ evOther.channelId →
          (handleMessageEvent "t9" stC7 evOther).channels[i]? = some c)
      ∧ (∀ (i : Nat) (c : Channel), stC7.channels[i]? = some c → c.cid = evOther.channelId →
          (handleMessageEvent "t9" stC7 evOther).channels[i]? = some
            { c with
              unreadCount := some (c.unreadCount.getD 0 + 1),
              lastMessage := some ⟨jsOrElse evOther.content "", evOther.senderId,
                                   jsOrElse evOther.senderUsername "unknown",
                                   jsOrElse (jsOrOpt evOther.timestamp evOther.createdAt)
                                     "t9"⟩ })) :=
  ⟨by decide, nonactive_message_unread_increment stC7 evOther "t9" (by decide)⟩

/-- Claim C10: an inbound `message` event whose `channelId` differs from
the active channel and matches no locally known channel leaves the whole
store state unchanged: no unread counter, no preview, no rendered message,
no counter. -/
theorem unknown_channel_message_ignored
    (st : AppState) (ev : MessageEvent) (now : String)
    (hne : some ev.channelId ≠ st.activeChannelId)
    (hnk : ∀ c ∈ st.channels, c.cid ≠ ev.channelId) :
    handleMessageEvent now st ev = st := by
  unfold handleMessageEvent
  simp only [hne, if_neg, if_pos, ne_eq, not_false_iff]
  have hmap : ∀ l : List Channel, (∀ c ∈ l, c.cid ≠ ev.channelId) →
      l.map (fun c =>
        if c.cid = ev.channelId then
          { c with
            unreadCount := some (c.unreadCount.getD 0 + 1),
            lastMessage := some ⟨jsOrElse ev.content "", ev.senderId,
                                 jsOrElse ev.senderUsername "unknown",
                                 jsOrElse (jsOrOpt ev.timestamp ev.createdAt) now⟩ }
        else c) = l := by
    intro l hl
    induction l with
    | nil => rfl
    | cons c t ih =>
        simp only [List.map_cons]
        rw [if_neg (hl c (List.mem_cons_self c t)),
            ih (fun d hd => hl d (List.mem_cons_of_mem c hd))]
  rw [hmap st.channels hnk]

theorem renderHistoryGo_state (ms : List ApiMessage) (st : AppState) :
    (renderHistoryGo st ms).1
      = { st with msgIdCounter := st.msgIdCounter + ms.length } := by
  induction ms generalizing st with
  | nil => simp [renderHistoryGo]
  | cons m t ih =>
      simp only [renderHistoryGo, ih]
      have harith : st.msgIdCounter + 1 + t.length
          = st.msgIdCounter + (t.length + 1) := by omega
      simp [harith]

/-- Claim C6 counterexample: the user switches to a channel whose locally
stored unread count is 3 and the switch's history fetch resolves; the
channel is now active, yet its locally stored unread count is still 3,
not 0 — `switchToChannel` never writes the local `unreadCount` field (it
only issues a fire-and-forget server-side `markChannelRead` call). -/
theorem switchToChannel_no_unread_reset_counterexample :
    switchedUnread.activeChannelId = some chUnread.cid
    ∧ switchedUnread.channels.map (fun c => c.unreadCount) = [some 3] := by
  exact ⟨rfl, rfl⟩

/-- Claim C6 amended: `switchToChannel(ch)` does not touch the locally
stored unread count of any channel — the channel list is left entirely
unchanged by the synchronous switch and by either fetch continuation; the
only read-receipt effect is the fire-and-forget `markChannelRead(ch.id)`
data-access call the switch issues. -/
theorem switch_leaves_channels_unchanged
    (wsOpen : Bool) (now now2 : String) (st : AppState) (ch : Channel)
    (page : List ApiMessage) (emsg : String) :
    (switchFetchOk (switchToChannelSync wsOpen now st ch).state
        (switchToChannelSync wsOpen now st ch).sysMsg page).channels = st.channels
    ∧ (switchFetchErr now2 (switchToChannelSync wsOpen now st ch).state
        (switchToChannelSync wsOpen now st ch).sysMsg emsg).channels = st.channels
    ∧ ApiCall.markChannelRead ch.cid ∈ (switchToChannelSync wsOpen now st ch).apiCalls := by
  refine ⟨?_, ?_, ?_⟩
  · simp [switchFetchOk, renderHistoryGo_state, switchToChannelSync]
  · simp [switchFetchErr, switchToChannelSync]
  · simp [switchToChannelSync]

/-- Claim C3 is violated by the code (code bug): `switchToChannel` awaits
`api.getMessages` and then calls `setMessages([systemMsg, ...rendered])`
without re-checking the active channel id.  In the modelled interleaving
the user switches to "alpha" (id 1), then to "beta" (id 2), and then the
history fetch issued for "alpha" resolves last: the final state has
"beta" active while the rendered list holds "alpha"'s switch notice and
"alpha"'s history — the stale response is written, not discarded. -/
theorem stale_history_overwrites_active_list :
    staleResult.activeChannelId = some chBeta.cid
    ∧ staleResult.messages.map (fun m => m.text)
        = ["system: switched to #alpha", "hello from alpha"] := by
  exact ⟨rfl, rfl⟩

theorem unknown_channel_message_ignored_witness :
    some evUnknown.channelId ≠ stC7.activeChannelId
    ∧ (∀ c ∈ stC7.channels, c.cid ≠ evUnknown.channelId)
    ∧ handleMessageEvent "t9" stC7 evUnknown = stC7 :=
  ⟨by decide, by decide,
   unknown_channel_message_ignored stC7 evUnknown "t9" (by decide) (by decide)⟩

/-! ## Dispatcher lemmas and theorems -/

theorem removeFirstById_mem (hs : List Handler) (x : Nat) :
    ∀ h ∈ removeFirstById hs x, h ∈ hs := by
  induction hs with
  | nil => intro h hh; simp [removeFirstById] at hh
  | cons a t ih =>
      intro h hh
      simp only [removeFirstById] at hh
      by_cases hax : a.hid = x
      · rw [if_pos hax] at hh
        exact List.mem_cons_of_mem a hh
      · rw [if_neg hax] at hh
        rcases List.mem_cons.mp hh with h1 | h2
        · exact h1 ▸ List.mem_cons_self a t
        · exact List.mem_cons_of_mem a (ih h h2)

theorem handlerIds_unsubscribe (r : Reg) (k : WsKey) (x y : Nat)
    (hy : y ∈ handlerIds (unsubscribe r k x)) : y ∈ handlerIds r := by
  induction r with
  | nil =>
      simp [unsubscribe, handlerIds] at hy
  | cons e t ih =>
      simp only [unsubscribe, List.map_cons, handlerIds] at hy
      simp only [handlerIds]
      rcases List.mem_append.mp hy with h1 | h2
      · by_cases hek : e.1 = k
        · rw [if_pos hek] at h1
          rcases List.mem_map.mp h1 with ⟨h, hmem, hhid⟩
          exact List.mem_append_left _
            (hhid ▸ List.mem_map_of_mem _ (removeFirstById_mem e.2 x h hmem))
        · rw [if_neg hek] at h1
          exact List.mem_append_left _ h1
      · exact List.mem_append_right _ (ih h2)

theorem handlerIds_applyUnsubs (us : List (WsKey × Nat)) (r : Reg) (y : Nat)
    (hy : y ∈ handlerIds (applyUnsubs r us)) : y ∈ handlerIds r := by
  induction us generalizing r with
  | nil => simpa [applyUnsubs] using hy
  | cons u us ih =>
      simp only [applyUnsubs] at hy
      exact handlerIds_unsubscribe r u.1 u.2 y (ih _ hy)

theorem lookupKey_ids (r : Reg) (k : WsKey) (arr : List Handler)
    (hl : lookupKey r k = some arr) : ∀ h ∈ arr, h.hid ∈ handlerIds r := by
  induction r with
  | nil => simp [lookupKey] at hl
  | cons e t ih =>
      intro h hh
      simp only [lookupKey] at hl
      simp only [handlerIds]
      by_cases hek : e.1 = k
      · rw [if_pos hek] at hl
        injection hl with hl
        subst hl
        exact List.mem_append_left _ (List.mem_map_of_mem _ hh)
      · rw [if_neg hek] at hl
        exact List.mem_append_right _ (ih hl h hh)

theorem forEachPhase_succ (key : WsKey) (k n : Nat) (r : Reg) (log : List Nat) :
    forEachPhase key k (n + 1) r log
      = if h : k < ((lookupKey r key).getD []).length then
          if (((lookupKey r key).getD []).get ⟨k, h⟩).throws then
            ⟨applyUnsubs r (((lookupKey r key).getD []).get ⟨k, h⟩).unsubs,
             log ++ [(((lookupKey r key).getD []).get ⟨k, h⟩).hid], true⟩
          else
            forEachPhase key (k + 1) n
              (applyUnsubs r (((lookupKey r key).getD []).get ⟨k, h⟩).unsubs)
              (log ++ [(((lookupKey r key).getD []).get ⟨k, h⟩).hid])
        else forEachPhase key (k + 1) n r log := rfl

theorem getD_mem_ids (r : Reg) (key : WsKey) (h : Handler)
    (hh : h ∈ (lookupKey r key).getD []) : h.hid ∈ handlerIds r := by
  cases hlk : lookupKey r key with
  | none =>
      rw [hlk] at hh
      simp at hh
  | some arr =>
      rw [hlk] at hh
      exact lookupKey_ids r key arr hlk h hh

theorem forEachPhase_conservative (key : WsKey) (steps : Nat) :
    ∀ (k : Nat) (r : Reg) (log : List Nat),
      (∀ y ∈ (forEachPhase key k steps r log).log, y ∈ log ∨ y ∈ handlerIds r)
      ∧ (∀ y ∈ handlerIds (forEachPhase key k steps r log).reg, y ∈ handlerIds r) := by
  induction steps with
  | zero =>
      intro k r log
      simp only [forEachPhase]
      exact ⟨fun y hy => Or.inl hy, fun y hy => hy⟩
  | succ n ih =>
      intro k r log
      simp only [forEachPhase]
      by_cases hk : k < ((lookupKey r key).getD []).length
      · rw [dif_pos hk]
        have hmem : (((lookupKey r key).getD []).get ⟨k, hk⟩).hid ∈ handlerIds r :=
          getD_mem_ids r key _ (List.get_mem _ k hk)
        by_cases hthrow : (((lookupKey r key).getD []).get ⟨k, hk⟩).throws
        · rw [if_pos hthrow]
          constructor
          · intro y hy
            rcases List.mem_append.mp hy with hy | hy
            · exact Or.inl hy
            · simp only [List.mem_singleton] at hy
              exact Or.inr (hy ▸ hmem)
          · intro y hy
            exact handlerIds_applyUnsubs _ r y hy
        · rw [if_neg hthrow]
          obtain ⟨ih1, ih2⟩ := ih (k + 1)
            (applyUnsubs r (((lookupKey r key).getD []).get ⟨k, hk⟩).unsubs)
            (log ++ [(((lookupKey r key).getD []).get ⟨k, hk⟩).hid])
          constructor
          · intro y hy
            rcases ih1 y hy with hy' | hy'
            · rcases List.mem_append.mp hy' with h | h
              · exact Or.inl h
              · simp only [List.mem_singleton] at h
                exact Or.inr (h ▸ hmem)
            · exact Or.inr (handlerIds_applyUnsubs _ r y hy')
          · intro y hy
            exact handlerIds_applyUnsubs _ r y (ih2 y hy)
      · rw [dif_neg hk]
        exact ih (k + 1) r log

theorem emit_conservative (r : Reg) (ftype : Option String) :
    (∀ y ∈ (emitModel r ftype).log, y ∈ handlerIds r)
    ∧ (∀ y ∈ handlerIds (emitModel r ftype).reg, y ∈ handlerIds r) := by
  unfold emitModel
  cases ftype with
  | none =>
      simp only
      obtain ⟨h1, h2⟩ := forEachPhase_conservative WsKey.star
        (((lookupKey r WsKey.star).getD []).length) 0 r []
      refine ⟨fun y hy => ?_, h2⟩
      rcases h1 y hy with h | h
      · simp at h
      · exact h
  | some t =>
      obtain ⟨k1, k2⟩ := forEachPhase_conservative (WsKey.kind t)
        (((lookupKey r (WsKey.kind t)).getD []).length) 0 r []
      by_cases hth :
          (forEachPhase (WsKey.kind t) 0
            (((lookupKey r (WsKey.kind t)).getD []).length) r []).threw
      · simp only [hth, if_true]
        refine ⟨fun y hy => ?_, k2⟩
        rcases k1 y hy with h | h
        · simp at h
        · exact h
      · simp only [Bool.not_eq_true] at hth
        simp only [hth, Bool.false_eq_true, if_false]
        obtain ⟨s1, s2⟩ := forEachPhase_conservative WsKey.star
          (((lookupKey (forEachPhase (WsKey.kind t) 0
              (((lookupKey r (WsKey.kind t)).getD []).length) r []).reg
              WsKey.star).getD []).length)
          0
          (forEachPhase (WsKey.kind t) 0
            (((lookupKey r (WsKey.kind t)).getD []).length) r []).reg
          (forEachPhase (WsKey.kind t) 0
            (((lookupKey r (WsKey.kind t)).getD []).length) r []).log
        constructor
        · intro y hy
          rcases s1 y hy with h | h
          · rcases k1 y h with h' | h'
            · simp at h'
            · exact h'
          · exact k2 y h
        · intro y hy
          exact k2 y (s2 y hy)

/-- Claim C4 counterexample: with handlers 1 (throws) and 2 registered for
kind "message" and wildcard handler 3, dispatching one "message" envelope
invokes only handler 1: the throwing handler's siblings (2 and the
wildcard 3) are *not* invoked, and the exception escapes `emit` — the
claim that all remaining sibling handlers still run is false on the code
(`emit` iterates with a bare `forEach` and no per-handler try/catch). -/
theorem handler_throw_skips_siblings_counterexample :
    (emitModel regThrow (some "message")).log = [1]
    ∧ 2 ∉ (emitModel regThrow (some "message")).log
    ∧ 3 ∉ (emitModel regThrow (some "message")).log
    ∧ (emitModel regThrow (some "message")).threw = true := by decide

theorem forEachPhase_throw (key : WsKey) (r : Reg) (arr : List Handler)
    (harr : lookupKey r key = some arr) (th : Handler) (hth : th.throws = true)
    (post : List Handler) :
    ∀ (pre : List Handler) (k : Nat) (log : List Nat),
      arr.drop k = pre ++ th :: post →
      (∀ h ∈ pre, h.throws = false ∧ h.unsubs = []) →
      forEachPhase key k (arr.length - k) r log
        = ⟨applyUnsubs r th.unsubs, log ++ pre.map (fun h => h.hid) ++ [th.hid],
           true⟩ := by
  have harrD : (lookupKey r key).getD [] = arr := by rw [harr]; rfl
  intro pre
  induction pre with
  | nil =>
      intro k log hdrop _
      have hlenEq := congrArg List.length hdrop
      rw [List.length_drop] at hlenEq
      simp at hlenEq
      have hk : k < ((lookupKey r key).getD []).length := by rw [harrD]; omega
      have hlen : arr.length - k = post.length + 1 := by omega
      have hget : ((lookupKey r key).getD [])[k]? = some th := by
        rw [harrD]
        have h0 : (arr.drop k)[0]? = some th := by rw [hdrop]; simp
        rw [List.getElem?_drop] at h0
        simpa using h0
      have hgetel2 : ∀ hp : k < ((lookupKey r key).getD []).length,
          getElem ((lookupKey r key).getD []) k hp = th := by
        intro hp
        have h2 := List.getElem?_eq_getElem hp
        rw [hget] at h2
        exact (Option.some.inj h2).symm
      have hgetel : ∀ hp : k < ((lookupKey r key).getD []).length,
          ((lookupKey r key).getD []).get ⟨k, hp⟩ = th := by
        intro hp
        rw [List.get_eq_getElem]
        exact hgetel2 hp
      rw [hlen]
      rw [forEachPhase_succ]
      rw [dif_pos hk]
      rw [hgetel hk]
      rw [if_pos hth]
      simp
  | cons p pre' ih =>
      intro k log hdrop hpre
      have hpp := hpre p (List.mem_cons_self p pre')
      have hlenEq := congrArg List.length hdrop
      rw [List.length_drop] at hlenEq
      simp at hlenEq
      have hk : k < ((lookupKey r key).getD []).length := by rw [harrD]; omega
      have hlen : arr.length - k = pre'.length + post.length + 1 + 1 := by omega
      have hget : ((lookupKey r key).getD [])[k]? = some p := by
        rw [harrD]
        have h0 : (arr.drop k)[0]? = some p := by rw [hdrop]; simp
        rw [List.getElem?_drop] at h0
        simpa using h0
      have hgetel2 : ∀ hp : k < ((lookupKey r key).getD []).length,
          getElem ((lookupKey r key).getD []) k hp = p := by
        intro hp
        have h2 := List.getElem?_eq_getElem hp
        rw [hget] at h2
        exact (Option.some.inj h2).symm
      have hgetel : ∀ hp : k < ((lookupKey r key).getD []).length,
          ((lookupKey r key).getD []).get ⟨k, hp⟩ = p := by
        intro hp
        rw [List.get_eq_getElem]
        exact hgetel2 hp
      have hdrop' : arr.drop (k + 1) = pre' ++ th :: post := by
        rw [← List.tail_drop, hdrop]
        rfl
      have hlen' : arr.length - (k + 1) = pre'.length + post.length + 1 := by omega
      rw [hlen]
      rw [forEachPhase_succ]
      rw [dif_pos hk]
      rw [hgetel hk]
      rw [if_neg (by rw [hpp.1]; exact Bool.false_ne_true)]
      rw [hpp.2]
      simp only [applyUnsubs]
      have hrec := ih (k + 1) (log ++ [p.hid]) hdrop'
        (fun h hh => hpre h (List.mem_cons_of_mem p hh))
      rw [hlen'] at hrec
      rw [hrec]
      simp

/-- Claim C4 amended: when a handler for the envelope's kind throws, the
dispatch is aborted — the handlers invoked are exactly the benign prefix
before the thrower plus the thrower itself; later kind-specific handlers
and all wildcard handlers are skipped for that envelope.  The exception
does not propagate out of the transport's receive handler: the `onmessage`
step is total, its try/catch swallows the exception, and the mutations and
invocations made before the throw persist. -/
theorem handler_exception_aborts_dispatch_amended (r : Reg) (t : String)
    (pre post : List Handler) (th : Handler)
    (hl : lookupKey r (WsKey.kind t) = some (pre ++ th :: post))
    (hpre : ∀ h ∈ pre, h.throws = false ∧ h.unsubs = [])
    (hth : th.throws = true) :
    (emitModel r (some t)).log = pre.map (fun h => h.hid) ++ [th.hid]
    ∧ (emitModel r (some t)).threw = true
    ∧ onmessageStep r (some (some t))
        = ((emitModel r (some t)).reg, pre.map (fun h => h.hid) ++ [th.hid]) := by
  have hrun := forEachPhase_throw (WsKey.kind t) r (pre ++ th :: post) hl th hth post
    pre 0 [] (by simp) hpre
  rw [Nat.sub_zero] at hrun
  have hemit : emitModel r (some t)
      = ⟨applyUnsubs r th.unsubs, pre.map (fun h => h.hid) ++ [th.hid], true⟩ := by
    simp only [emitModel]
    rw [hl]
    simp only [Option.getD_some]
    rw [hrun]
    simp
  refine ⟨by rw [hemit], by rw [hemit], ?_⟩
  simp only [onmessageStep]
  rw [hemit]

theorem handler_exception_aborts_dispatch_amended_witness :
    lookupKey regThrowW (WsKey.kind "m")
        = some ([⟨4, [], false⟩] ++ (⟨5, [], true⟩ : Handler) :: [⟨6, [], false⟩])
    ∧ (∀ h ∈ [(⟨4, [], false⟩ : Handler)], h.throws = false ∧ h.unsubs = [])
    ∧ ((⟨5, [], true⟩ : Handler).throws = true)
    ∧ ((emitModel regThrowW (some "m")).log
          = [(⟨4, [], false⟩ : Handler)].map (fun h => h.hid)
              ++ [(⟨5, [], true⟩ : Handler).hid]
      ∧ (emitModel regThrowW (some "m")).threw = true
      ∧ onmessageStep regThrowW (some (some "m"))
          = ((emitModel regThrowW (some "m")).reg,
             [(⟨4, [], false⟩ : Handler)].map (fun h => h.hid)
               ++ [(⟨5, [], true⟩ : Handler).hid])) :=
  ⟨by decide, by decide, by decide,
   handler_exception_aborts_dispatch_amended regThrowW "m" [⟨4, [], false⟩]
     [⟨6, [], false⟩] ⟨5, [], true⟩ (by decide) (by decide) (by decide)⟩

/-- Claim C5 counterexample: three handlers 1, 2, 3 are registered for
kind "message" and handler 1 unsubscribes itself when invoked.  Because
the unsubscribe splices the live array that `forEach` is iterating,
dispatching one "message" envelope invokes handlers 1 and 3 but *skips*
handler 2, which was already scheduled for the current dispatch — the
claim that unsubscription cannot affect handlers already scheduled is
false on the code. -/
theorem unsubscribe_mid_dispatch_skips_counterexample :
    (emitModel regSelfUnsub (some "message")).log = [1, 3]
    ∧ 2 ∉ (emitModel regSelfUnsub (some "message")).log := by decide

/-- Claim C5 amended: unsubscribing takes effect immediately on the live
handler array, so a handler scheduled for the current dispatch (the one
following the removed entry) can be skipped in that dispatch; once a
handler identity is absent from the registry it is never invoked by any
dispatch (dispatch only removes handlers, never adds them), so an
unsubscribed handler is not invoked in any subsequent dispatch. -/
theorem unsubscribed_handler_not_invoked_amended (r : Reg) (ftype : Option String)
    (x : Nat) (hx : x ∉ handlerIds r) :
    x ∉ (emitModel r ftype).log
    ∧ ∀ y ∈ handlerIds (emitModel r ftype).reg, y ∈ handlerIds r := by
  obtain ⟨h1, h2⟩ := emit_conservative r ftype
  exact ⟨fun hmem => hx (h1 x hmem), h2⟩

theorem unsubscribed_handler_not_invoked_amended_witness :
    (9 ∉ handlerIds regSingle)
    ∧ (9 ∉ (emitModel regSingle (some "m")).log
      ∧ ∀ y ∈ handlerIds (emitModel regSingle (some "m")).reg,
          y ∈ handlerIds regSingle) :=
  ⟨by decide, unsubscribed_handler_not_invoked_amended regSingle (some "m") 9 (by decide)⟩

/-- Claim C8 counterexample: with one wildcard handler (identity 7)
registered, a successfully parsed frame with no `type` field is *not*
discarded: the wildcard handler is invoked with it (`raw.type` is
undefined, so the kind lookup finds nothing, but the wildcard loop still
runs), so the invocation log is non-empty. -/
theorem missing_type_wildcard_invoked_counterexample :
    (emitModel regStarOnly none).log = [7]
    ∧ (emitModel regStarOnly none).log ≠ [] := by decide

/-- Claim C8 amended: a successfully parsed frame lacking a `type` field
is never delivered to any kind-specific handler — dispatch for such a
frame consists of the wildcard phase alone — and only when no wildcard
handler is registered is the frame fully discarded (registry unchanged, no
handler invoked, no exception). -/
theorem missing_type_only_wildcards_amended (r : Reg)
    (hstar : lookupKey r WsKey.star = none) :
    emitModel r none = ⟨r, [], false⟩
    ∧ ∀ r2 : Reg, emitModel r2 none
        = forEachPhase WsKey.star 0 ((lookupKey r2 WsKey.star).getD []).length r2 [] := by
  constructor
  · unfold emitModel
    simp [hstar, forEachPhase]
  · intro r2
    rfl

theorem missing_type_only_wildcards_amended_witness :
    lookupKey regSingle WsKey.star = none
    ∧ (emitModel regSingle none = ⟨regSingle, [], false⟩
      ∧ ∀ r2 : Reg, emitModel r2 none
          = forEachPhase WsKey.star 0 ((lookupKey r2 WsKey.star).getD []).length r2 []) :=
  ⟨by decide, missing_type_only_wildcards_amended regSingle (by decide)⟩

end CloseChat
